import Mathlib

/-!
Verification development for the `gitlint.git` module (file `gitlint/git.py`).

The module queries an external version-control tool (status, diff-tree, blame,
rev-parse, log) and parses the textual output.  The shallow embedding below
makes every external invocation explicit: each embedded function receives the
output of the command it would run as an argument (a plain `String` for the
calls whose failure behaviour is irrelevant to the properties below, and a
`CmdOut` value for the three guarded lookups, where the distinct failure modes
of the process launcher matter).

Python strings are modelled as `List Char` internally (`String` at the API
boundary); `bytes` outputs of blame are likewise modelled as character lists,
which is faithful for the ASCII inputs the properties concern.  The dynamic
result type of `modified_lines` (either `None` or a list) is `Option (List Nat)`.
-/

set_option maxRecDepth 100000

namespace Gitlint

/-- Outcome of `subprocess.check_output`: success with captured stdout,
a `CalledProcessError` (non-zero exit), or a `FileNotFoundError`
(executable missing, raised by the process launcher itself). -/
inductive CmdOut where
  | ok (output : String)
  | calledProcessError
  | fileNotFound
deriving DecidableEq, Repr

/-- Exceptions that can escape the embedded functions. -/
inductive PyExc where
  | fileNotFoundError
  | assertionError (msg : String)
deriving DecidableEq, Repr

/-- Characters stripped by Python `bytes.strip()` / `str.strip()`. -/
def isPySpace (c : Char) : Bool :=
  c = ' ' || c = '\t' || c = '\n' || c = '\r' || c = '\x0b' || c = '\x0c'

/-- Python `s.strip()`: remove whitespace from both ends. -/
def pyStrip (cs : List Char) : List Char :=
  ((cs.dropWhile isPySpace).reverse.dropWhile isPySpace).reverse

/-- Python `s.split(sep)` for a one-character separator: in particular the
empty string splits to `[""]`, never to `[]`. -/
def pySplit (sep : Char) : List Char → List (List Char)
  | [] => [[]]
  | c :: rest =>
    match pySplit sep rest with
    | [] => [[c]]
    | h :: t => if c = sep then [] :: h :: t else (c :: h) :: t

/-- ASCII digit, as matched by a backslash-d in a bytes pattern. -/
def isDigit (c : Char) : Bool := '0' ≤ c && c ≤ '9'

/-- Value of a nonempty ASCII digit string, as computed by Python `int`. -/
def digitsToNat (ds : List Char) : Nat :=
  ds.foldl (fun a c => a * 10 + (c.toNat - '0'.toNat)) 0

/-- If `p` is a prefix of `cs`, the remainder of `cs` after `p`. -/
def dropPfx : List Char → List Char → Option (List Char)
  | [], cs => some cs
  | _ :: _, [] => none
  | p :: ps, c :: cs => if p = c then dropPfx ps cs else none

/-- `re.search` semantics: try to match at every start position, leftmost
match wins; the match attempt at a position is `matchAt`. -/
def reSearch {α : Type} (matchAt : List Char → Option α) : List Char → Option α
  | [] => matchAt []
  | c :: rest =>
    match matchAt (c :: rest) with
    | some r => some r
    | none => reSearch matchAt rest

/-- Modelled from the spec: `gitlint.utils.filter_lines` is used by `git.py`
but its module is not among the provided sources.  Per the Line Filter
contract, every line is tried against the pattern, lines that do not match
are silently skipped, and the requested capture groups are yielded for each
match, in input order.  The compiled pattern together with the group
selection is passed here as a matcher returning the captures. -/
def filter_lines {α : Type} (lines : List (List Char)) (matcher : List Char → Option α) :
    List α :=
  lines.filterMap matcher

/-- Match attempt, at one position, of the blame pattern
`commit + ' (?P<line>\d+) (\d+)'` (a bytes pattern in the source): the
commit id, a space, the captured digit run, a space, another digit run.
Returns the `line` capture group. -/
def matchBlameAt (commit : List Char) (cs : List Char) : Option (List Char) :=
  match dropPfx (commit ++ [' ']) cs with
  | none => none
  | some rest =>
    match rest.takeWhile isDigit with
    | [] => none
    | d :: ds =>
      match (rest.dropWhile isDigit) with
      | ' ' :: r2 => if (r2.takeWhile isDigit).isEmpty then none else some (d :: ds)
      | _ => none

/-- The forty-zero sentinel revision id `'0' * 40`. -/
def zeros40 : String := ⟨List.replicate 40 '0'⟩

/-- `modified_lines(filename, extra_data, commit=None)` from `git.py`, with
the blame output supplied as `blame filename` (the source runs
`git blame --porcelain filename` and splits the bytes on the line
separator).  `none` models the Python return value `None`. -/
def modified_lines (blame : String → String) (filename : String)
    (extra_data : Option String) (commit : Option String) : Option (List Nat) :=
  match extra_data with
  | none => some []
  | some ed =>
    if ed = "M " ∨ ed = " M" ∨ ed = "MM" then
      let c := (commit.getD zeros40).data
      let blame_lines := pySplit '\n' (blame filename).data
      let modified_line_numbers := filter_lines blame_lines (reSearch (matchBlameAt c))
      some (modified_line_numbers.map digitsToNat)
    else none

/-- The captured and integer-converted line-number fields of a blame output,
for the forty-zero revision: what the last step of `modified_lines`
computes when no commit is given. -/
def blameLineNumbers (blameOut : String) : List Nat :=
  (filter_lines (pySplit '\n' blameOut.data) (reSearch (matchBlameAt zeros40.data))).map
    digitsToNat

/-- `repository_root()` from `git.py`: on success, strip the output of
`git rev-parse --show-toplevel` and decode it; a `CalledProcessError` is
caught and turned into `None`; any other exception of the launcher, in
particular `FileNotFoundError` for a missing executable, is not caught by
the `except subprocess.CalledProcessError` clause and propagates. -/
def repository_root (cmd : CmdOut) : Except PyExc (Option String) :=
  match cmd with
  | .ok out => .ok (some ⟨pyStrip out.data⟩)
  | .calledProcessError => .ok none
  | .fileNotFound => .error .fileNotFoundError

/-- `last_commit()` from `git.py`: same structure as `repository_root`,
over `git rev-parse HEAD`. -/
def last_commit (cmd : CmdOut) : Except PyExc (Option String) :=
  match cmd with
  | .ok out => .ok (some ⟨pyStrip out.data⟩)
  | .calledProcessError => .ok none
  | .fileNotFound => .error .fileNotFoundError

/-- `commits_head_to_main(master='main')` from `git.py`: on success the
stripped output of the log command is split on newlines (Python
`str.split('\n')`, so an empty output yields a list holding one empty
string); a `CalledProcessError` is caught and turned into `[]`. -/
def commits_head_to_main (cmd : CmdOut) (_master : String) : Except PyExc (List String) :=
  match cmd with
  | .ok out => .ok ((pySplit '\n' (pyStrip out.data)).map fun cs => (⟨cs⟩ : String))
  | .calledProcessError => .ok []
  | .fileNotFound => .error .fileNotFoundError

/-- `_remove_filename_quotes(filename)` from `git.py`: if the filename both
starts and ends with a double quote, return `filename[1:-1]`; otherwise
return it unchanged. -/
def _remove_filename_quotes (filename : String) : String :=
  if filename.data.head? = some '"' ∧ filename.data.getLast? = some '"' then
    ⟨(filename.data.dropLast).drop 1⟩
  else filename

/-- POSIX `os.path.isabs`. -/
def os_path_isabs (s : String) : Bool := s.data.head? = some '/'

/-- POSIX `os.path.join` for two components. -/
def os_path_join (root path : String) : String :=
  if path.data.head? = some '/' then path
  else if root = "" ∨ root.data.getLast? = some '/' then root ++ path
  else root ++ "/" ++ path

/-- Python `dict` insertion: overwrite the value in place when the key is
present, append the pair otherwise. -/
def dictSet : List (String × String) → String → String → List (String × String)
  | [], k, v => [(k, v)]
  | (k0, v0) :: rest, k, v =>
    if k0 = k then (k0, v) :: rest else (k0, v0) :: dictSet rest k v

/-- Python `d.update(entries)` / `dict(entries)`: insert the pairs in
order, later pairs overwriting earlier ones with the same key. -/
def dictUpdate (m : List (String × String)) (entries : List (String × String)) :
    List (String × String) :=
  entries.foldl (fun acc kv => dictSet acc kv.1 kv.2) m

/-- Python `dict(pairs)`. -/
def dictOfPairs (entries : List (String × String)) : List (String × String) :=
  dictUpdate [] entries

/-- Truthiness of the `commits` argument (`if commits:`): `None` and the
empty list are falsy. -/
def pyTruthy : Option (List String) → Bool
  | none => false
  | some [] => false
  | some (_ :: _) => true

/-- The ordered mode alternatives of the status pattern
`(?P<mode>M | M|A |AM|MM|\?\?)`; the untracked alternative is appended
unless `tracked_only`. -/
def statusModes (tracked_only : Bool) : List (List Char) :=
  let modes := [['M', ' '], [' ', 'M'], ['A', ' '], ['A', 'M'], ['M', 'M']]
  if tracked_only then modes else modes ++ [['?', '?']]

/-- Match attempt, at one position, of the status pattern
`(?P<mode>...) (?P<filename>.+)`: try each mode alternative in order; after
the mode, a literal space, then the nonempty rest of the line is the
filename capture.  Returns the groups in the requested order
`(filename, mode)`. -/
def matchStatusAt (modes : List (List Char)) (cs : List Char) :
    Option (List Char × List Char) :=
  match modes with
  | [] => none
  | m :: ms =>
    match dropPfx m cs with
    | some (' ' :: c :: rest) => some (c :: rest, m)
    | _ => matchStatusAt ms cs

/-- Match attempt, at one position, of the diff-tree pattern
`(?P<mode>A|M)\s(?P<filename>.+)`: a single `A` or `M`, one whitespace
character, then the nonempty rest of the line as the filename.  Returns
`(filename, mode)`. -/
def matchDiffTreeAt (cs : List Char) : Option (List Char × List Char) :=
  match cs with
  | m :: w :: c :: rest =>
    if (m = 'A' ∨ m = 'M') ∧ isPySpace w then some (c :: rest, [m]) else none
  | _ => none

/-- `_modified_files_with_commit(root, commit)` from `git.py`, with the
output of `git diff-tree -r --root --no-commit-id --name-status commit`
supplied as `diffOut`: filter the lines with the diff-tree pattern, strip
filename quotes, key by the root-joined path, and append a space to the
one-character mode. -/
def _modified_files_with_commit (diffOut : String) (root : String) (_commit : String) :
    List (String × String) :=
  let status_lines := pySplit '\n' diffOut.data
  let modified_file_status := filter_lines status_lines (reSearch matchDiffTreeAt)
  dictOfPairs (modified_file_status.map fun p =>
    (os_path_join root (_remove_filename_quotes ⟨p.1⟩), (⟨p.2⟩ : String) ++ " "))

/-- `modified_files(root, tracked_only=False, commits=None)` from `git.py`.
`statusOut` is the output of the status command and `diffTree commit` the
output of the diff-tree command for `commit`.  A relative root fails the
assertion; with a truthy commit list the per-commit maps are merged with
`dict.update` and the status query is not consulted; otherwise the status
lines are filtered, quotes stripped, and the map is keyed by root-joined
paths with the two-character mode as value. -/
def modified_files (statusOut : String) (diffTree : String → String) (root : String)
    (tracked_only : Bool) (commits : Option (List String)) :
    Except PyExc (List (String × String)) :=
  if ¬ os_path_isabs root then
    .error (.assertionError ("Root has to be absolute, got: " ++ root))
  else if pyTruthy commits then
    .ok ((commits.getD []).foldl
      (fun acc commit => dictUpdate acc (_modified_files_with_commit (diffTree commit) root commit))
      [])
  else
    let status_lines := pySplit '\n' statusOut.data
    let modified_file_status :=
      filter_lines status_lines (reSearch (matchStatusAt (statusModes tracked_only)))
    .ok (dictOfPairs (modified_file_status.map fun p =>
      (os_path_join root (_remove_filename_quotes ⟨p.1⟩), (⟨p.2⟩ : String))))

/-- `modified_lines_for_pr(filename, extra_data, commits=[])` from `git.py`:
fold over the commits in order, concatenating each truthy result of
`modified_lines` (bound to that commit) onto the accumulator, and return
the accumulated list.  The result type mirrors the dynamic Python return
value; the single return statement returns the list. -/
def modified_lines_for_pr (blame : String → String) (filename : String)
    (extra_data : Option String) (commits : List String) : Option (List Nat) :=
  some (commits.foldl (fun acc commit =>
    match modified_lines blame filename extra_data (some commit) with
    | some (x :: xs) => acc ++ (x :: xs)
    | _ => acc) [])

/-- One iteration of the loop of `modified_lines_for_pr`: concatenate the
per-commit result onto the accumulator when it is truthy. -/
def prStep (blame : String → String) (filename : String) (extra_data : Option String)
    (acc : List Nat) (commit : String) : List Nat :=
  match modified_lines blame filename extra_data (some commit) with
  | some (x :: xs) => acc ++ (x :: xs)
  | _ => acc

/-- The list accumulated by the loop of `modified_lines_for_pr`. -/
def prAccum (blame : String → String) (filename : String)
    (extra_data : Option String) (commits : List String) : List Nat :=
  commits.foldl (prStep blame filename extra_data) []

/-- Blame output with two header lines attributed to the forty-zero
revision (original and final line numbers 12 and 47), one header line of
another revision, and the content lines porcelain blame interleaves. -/
def c1BlameOut : String :=
  "0000000000000000000000000000000000000000 12 12\nauthor Not Committed Yet\n\tchanged line twelve\n1111111111111111111111111111111111111111 3 3\n\told line three\n0000000000000000000000000000000000000000 47 47\n\tchanged line forty seven"

/-- Diff-tree outputs in which commit `c1` adds `something.py` and commit
`c2` modifies the same file. -/
def c4DiffTree : String → String := fun c =>
  if c = "c1" then "A\tsomething.py" else if c = "c2" then "M\tsomething.py" else ""

/-- A forty-character revision id made of ones. -/
def sha1x40 : String := ⟨List.replicate 40 '1'⟩

/-- A forty-character revision id made of twos. -/
def sha2x40 : String := ⟨List.replicate 40 '2'⟩

/-- Blame output in which both `sha1x40` and `sha2x40` report line 5. -/
def c9BlameOut : String :=
  "1111111111111111111111111111111111111111 5 5\n\talpha\n2222222222222222222222222222222222222222 5 5\n\tbeta"

/-- Blame output in which `sha1x40` reports line 7 and `sha2x40` reports
line 3, so commit order and numeric order disagree. -/
def c9BlameOrd : String :=
  "1111111111111111111111111111111111111111 7 7\n\talpha\n2222222222222222222222222222222222222222 3 3\n\tbeta"

theorem mlfp_eq_prAccum (b : String → String) (f : String) (e : Option String)
    (cs : List String) :
    modified_lines_for_pr b f e cs = some (prAccum b f e cs) := rfl

theorem prStep_split (b : String → String) (f : String) (e : Option String)
    (a : List Nat) (c : String) :
    prStep b f e a c = a ++ prStep b f e [] c := by
  unfold prStep
  cases h : modified_lines b f e (some c) with
  | none => simp
  | some l => cases l <;> simp

theorem foldl_prStep_init (b : String → String) (f : String) (e : Option String) :
    ∀ (cs : List String) (acc : List Nat),
      cs.foldl (prStep b f e) acc = acc ++ prAccum b f e cs := by
  intro cs
  induction cs with
  | nil => intro acc; simp [prAccum]
  | cons c cs ih =>
    intro acc
    rw [List.foldl_cons, ih, prStep_split, List.append_assoc]
    congr 1
    show _ = List.foldl (prStep b f e) [] (c :: cs)
    rw [List.foldl_cons, ih]

theorem prAccum_cons (b : String → String) (f : String) (e : Option String)
    (c : String) (cs : List String) :
    prAccum b f e (c :: cs) = prStep b f e [] c ++ prAccum b f e cs := by
  show List.foldl (prStep b f e) [] (c :: cs) = _
  rw [List.foldl_cons, foldl_prStep_init]

theorem prAccum_append (b : String → String) (f : String) (e : Option String)
    (cs1 cs2 : List String) :
    prAccum b f e (cs1 ++ cs2) = prAccum b f e cs1 ++ prAccum b f e cs2 := by
  show List.foldl (prStep b f e) [] (cs1 ++ cs2) = _
  rw [List.foldl_append, foldl_prStep_init b f e cs2, foldl_prStep_init b f e cs1,
    List.nil_append]

theorem prAccum_all_none (b : String → String) (f : String) (e : Option String)
    (cs : List String) (h : ∀ c, modified_lines b f e (some c) = none) :
    prAccum b f e cs = [] := by
  induction cs with
  | nil => rfl
  | cons c cs ih =>
    have hc : prStep b f e [] c = [] := by unfold prStep; rw [h c]
    rw [prAccum_cons, hc, ih, List.nil_append]

/-- C1: with status `"M "` and no commit, `modified_lines` blames against the
forty-zero revision id (same result as passing it explicitly), returns
exactly the captured line-number fields converted to integers in order of
appearance (so the parser introduces no duplicates and no reordering:
strictly ascending captures give a strictly ascending, duplicate-free
result), and on the blame output holding the two forty-zero header lines
for lines 12 and 47 it returns `[12, 47]`. -/
theorem modified_lines_modification_uses_zero_revision :
    ∀ (blame : String → String) (f : String),
      modified_lines blame f (some "M ") none
        = modified_lines blame f (some "M ") (some zeros40) ∧
      modified_lines blame f (some "M ") none = some (blameLineNumbers (blame f)) ∧
      (∀ l, modified_lines blame f (some "M ") none = some l →
        List.Sorted (· < ·) (blameLineNumbers (blame f)) →
        List.Sorted (· < ·) l ∧ l.Nodup) ∧
      modified_lines (fun _ => c1BlameOut) "foo.py" (some "M ") none = some [12, 47] := by
  intro blame f
  refine ⟨rfl, rfl, ?_, rfl⟩
  intro l hl hsort
  have h2 : modified_lines blame f (some "M ") none = some (blameLineNumbers (blame f)) := rfl
  rw [hl] at h2
  obtain rfl : l = blameLineNumbers (blame f) := Option.some.inj h2
  exact ⟨hsort, hsort.nodup⟩

/-- Witness for C1 at the concrete blame output of the scenario. -/
theorem modified_lines_modification_uses_zero_revision_witness :
    modified_lines (fun _ => c1BlameOut) "foo.py" (some "M ") none = some [12, 47] ∧
    List.Sorted (· < ·) ([12, 47] : List Nat) ∧ ([12, 47] : List Nat).Nodup := by
  have h := modified_lines_modification_uses_zero_revision (fun _ => c1BlameOut) "foo.py"
  have hs : List.Sorted (· < ·) (blameLineNumbers c1BlameOut) := by
    rw [show blameLineNumbers c1BlameOut = [12, 47] from rfl]
    simp [List.sorted_cons]
  exact ⟨h.2.2.2, (h.2.2.1 [12, 47] h.2.2.2 hs).1, (h.2.2.1 [12, 47] h.2.2.2 hs).2⟩

/-- C2: a status that is present but not one of `"M "`, `" M"`, `"MM"` makes
`modified_lines` return the `None` sentinel, for every filename, blame
output and commit value. -/
theorem modified_lines_addition_returns_none_sentinel :
    ∀ (blame : String → String) (f : String) (commit : Option String) (ed : String),
      ed ≠ "M " → ed ≠ " M" → ed ≠ "MM" →
      modified_lines blame f (some ed) commit = none := by
  intro blame f commit ed h1 h2 h3
  simp [modified_lines, h1, h2, h3]

/-- Witness for C2 at status `"A "`. -/
theorem modified_lines_addition_sentinel_witness :
    modified_lines (fun _ => c1BlameOut) "foo.py" (some "A ") none = none :=
  modified_lines_addition_returns_none_sentinel (fun _ => c1BlameOut) "foo.py" none "A "
    (by decide) (by decide) (by decide)

/-- C3: an absent status makes `modified_lines` return the empty list (and
hence neither `None` nor a non-empty list), for every filename, blame
output and commit value. -/
theorem modified_lines_absent_status_returns_empty :
    ∀ (blame : String → String) (f : String) (commit : Option String),
      modified_lines blame f none commit = some [] := by
  intro blame f commit
  rfl

/-- C4: with a non-empty commit list and an absolute root, `modified_files`
ignores the status output entirely (its result does not depend on it),
returns the per-commit maps folded together in order with `dict.update`
(later commits overwriting earlier ones), and on the scenario where `c1`
adds `something.py` and `c2` modifies it the merged map carries the
two-character status `"M "` for that file. -/
theorem modified_files_commit_merge_spec :
    ∀ (statusOut statusOut2 : String) (diffTree : String → String) (root : String)
      (t : Bool) (c : String) (cs : List String),
      os_path_isabs root = true →
      (modified_files statusOut diffTree root t (some (c :: cs))
        = modified_files statusOut2 diffTree root t (some (c :: cs))) ∧
      (modified_files statusOut diffTree root t (some (c :: cs))
        = .ok ((c :: cs).foldl
            (fun acc commit =>
              dictUpdate acc (_modified_files_with_commit (diffTree commit) root commit))
            [])) ∧
      modified_files "" c4DiffTree "/repo" false (some ["c1", "c2"])
        = .ok [("/repo/something.py", "M ")] := by
  intro s1 s2 diffTree root t c cs h
  have hmf : ∀ (s : String),
      modified_files s diffTree root t (some (c :: cs))
        = .ok ((c :: cs).foldl
            (fun acc commit =>
              dictUpdate acc (_modified_files_with_commit (diffTree commit) root commit))
            []) := by
    intro s
    simp [modified_files, h, pyTruthy]
  exact ⟨(hmf s1).trans (hmf s2).symm, hmf s1, rfl⟩

/-- Witness for C4 at the two-commit scenario with root `/repo`. -/
theorem modified_files_commit_merge_spec_witness :
    modified_files "STATUS-A" c4DiffTree "/repo" false (some ["c1", "c2"])
      = modified_files "STATUS-B" c4DiffTree "/repo" false (some ["c1", "c2"]) ∧
    modified_files "STATUS-A" c4DiffTree "/repo" false (some ["c1", "c2"])
      = .ok [("/repo/something.py", "M ")] := by
  have h := modified_files_commit_merge_spec "STATUS-A" "STATUS-B" c4DiffTree "/repo"
    false "c1" ["c2"] rfl
  exact ⟨h.1, h.2.1.trans (by rfl)⟩

/-- C5: the code at the failing input of the claim.  When the log command
succeeds with empty output (HEAD equal to the remote main branch),
`commits_head_to_main` returns a one-element list holding the empty
string, because Python `str.split` on the empty string yields a singleton
empty string; the claim and spec say the result is the empty list. -/
theorem commits_head_to_main_empty_log_bug :
    commits_head_to_main (.ok "") "main" = .ok [""] ∧
    commits_head_to_main (.ok "\n") "main" = .ok [""] := ⟨rfl, rfl⟩

/-- Counterexample to C6: when the executable is missing, the launcher
raises `FileNotFoundError`, the `except CalledProcessError` clause does not
catch it, and both lookups propagate the exception rather than returning
`None`. -/
theorem repository_root_missing_executable_propagates :
    repository_root CmdOut.fileNotFound = Except.error PyExc.fileNotFoundError ∧
    last_commit CmdOut.fileNotFound = Except.error PyExc.fileNotFoundError ∧
    Except.error PyExc.fileNotFoundError ≠ (Except.ok none : Except PyExc (Option String)) :=
  ⟨rfl, rfl, by simp⟩

/-- C6 as amended: a non-zero process exit is swallowed and converted to
`None` by `repository_root` and `last_commit`; a missing executable
raises `FileNotFoundError`, which propagates to the caller. -/
theorem repository_lookup_failure_contract :
    repository_root CmdOut.calledProcessError = Except.ok none ∧
    last_commit CmdOut.calledProcessError = Except.ok none ∧
    repository_root CmdOut.fileNotFound = Except.error PyExc.fileNotFoundError ∧
    last_commit CmdOut.fileNotFound = Except.error PyExc.fileNotFoundError :=
  ⟨rfl, rfl, rfl, rfl⟩

/-- C7: a non-absolute root makes `modified_files` fail the assertion with a
message naming the offending value, for every combination of the other
arguments, and the result does not depend on any command output. -/
theorem modified_files_relative_root_fails_fast :
    ∀ (statusOut statusOut2 : String) (diffTree diffTree2 : String → String)
      (root : String) (t : Bool) (commits : Option (List String)),
      os_path_isabs root = false →
      (modified_files statusOut diffTree root t commits
        = .error (.assertionError ("Root has to be absolute, got: " ++ root))) ∧
      (modified_files statusOut diffTree root t commits
        = modified_files statusOut2 diffTree2 root t commits) := by
  intro s1 s2 d1 d2 root t commits h
  have hmf : ∀ (s : String) (d : String → String),
      modified_files s d root t commits
        = .error (.assertionError ("Root has to be absolute, got: " ++ root)) := by
    intro s d
    simp [modified_files, h]
  exact ⟨hmf s1 d1, (hmf s1 d1).trans (hmf s2 d2).symm⟩

/-- Witness for C7 at the relative root of the scenario. -/
theorem modified_files_relative_root_fails_fast_witness :
    modified_files "STATUS" (fun _ => "") "relative/path" false none
      = .error (.assertionError ("Root has to be absolute, got: relative/path")) := by
  have h := modified_files_relative_root_fails_fast "STATUS" "STATUS" (fun _ => "")
    (fun _ => "") "relative/path" false none rfl
  exact h.1

/-- C8: `_remove_filename_quotes` strips exactly one leading and one
trailing double quote and leaves every other character untouched, and a
status line `A  "weird name.txt"` yields the map entry keyed by the
root-joined, quote-stripped filename, whose key ends in
`weird name.txt`. -/
theorem modified_files_quote_stripping_spec :
    ∀ (s : String),
      _remove_filename_quotes ⟨'"' :: s.data ++ ['"']⟩ = s ∧
      modified_files "A  \"weird name.txt\"" (fun _ => "") "/repo" false none
        = .ok [("/repo/weird name.txt", "A ")] ∧
      ("weird name.txt").data.IsSuffix ("/repo/weird name.txt").data := by
  intro s
  refine ⟨?_, rfl, by decide⟩
  unfold _remove_filename_quotes
  have h2 : ('"' :: s.data ++ ['"'] : List Char).getLast? = some '"' := by
    rw [show ('"' :: s.data ++ ['"'] : List Char) = ('"' :: s.data) ++ ['"'] from rfl,
      List.getLast?_concat]
  rw [if_pos ⟨rfl, h2⟩]
  rw [show ('"' :: s.data ++ ['"'] : List Char) = ('"' :: s.data) ++ ['"'] from rfl,
    List.dropLast_concat]
  rfl

/-- C9: `modified_lines_for_pr` is the concatenation, in commit order, of
the truthy per-commit results: it maps a split commit list to the
concatenation of the two halves, each commit list to `some` of its
accumulated concatenation (no deduplication, no sorting), two commits that
both report line 5 to `[5, 5]`, and commits reporting 7 then 3 to the
unsorted `[7, 3]`. -/
theorem modified_lines_for_pr_concatenation_spec :
    ∀ (blame : String → String) (f : String) (ed : Option String)
      (cs1 cs2 : List String),
      modified_lines_for_pr blame f ed (cs1 ++ cs2)
        = some (prAccum blame f ed cs1 ++ prAccum blame f ed cs2) ∧
      modified_lines_for_pr blame f ed cs1 = some (prAccum blame f ed cs1) ∧
      modified_lines_for_pr blame f ed cs2 = some (prAccum blame f ed cs2) ∧
      modified_lines_for_pr (fun _ => c9BlameOut) "f.py" (some "M ") [sha1x40, sha2x40]
        = some [5, 5] ∧
      modified_lines_for_pr (fun _ => c9BlameOrd) "f.py" (some "M ") [sha1x40, sha2x40]
        = some [7, 3] := by
  intro blame f ed cs1 cs2
  refine ⟨?_, rfl, rfl, rfl, rfl⟩
  rw [mlfp_eq_prAccum, prAccum_append]

/-- C10: `modified_lines_for_pr` always returns a list, never the `None`
sentinel; in particular when the status is present but marks the file as
all-new (so every per-commit `modified_lines` call yields `None`), the
aggregate is the empty list. -/
theorem modified_lines_for_pr_never_none :
    ∀ (blame : String → String) (f : String) (ed : Option String) (cs : List String),
      (∃ l, modified_lines_for_pr blame f ed cs = some l) ∧
      (∀ e, ed = some e → ¬(e = "M " ∨ e = " M" ∨ e = "MM") →
        modified_lines_for_pr blame f ed cs = some []) := by
  intro blame f ed cs
  constructor
  · exact ⟨prAccum blame f ed cs, rfl⟩
  · intro e he hne
    subst he
    have hml : ∀ c, modified_lines blame f (some e) (some c) = none := by
      intro c
      simp [modified_lines, hne]
    rw [mlfp_eq_prAccum, prAccum_all_none blame f (some e) cs hml]

/-- Witness for C10 at status `"A "` and one commit. -/
theorem modified_lines_for_pr_never_none_witness :
    modified_lines_for_pr (fun _ => c9BlameOut) "f.py" (some "A ") [sha1x40] = some [] := by
  have h := modified_lines_for_pr_never_none (fun _ => c9BlameOut) "f.py" (some "A ") [sha1x40]
  exact h.2 "A " rfl (by decide)

end Gitlint
